import Mathlib

/-!
Verification of the filtering-and-aggregation core of the Top Movies
Dash application (`app.py`).

The embedding models:
* `MovieRecord` rows of the catalog.  A pandas `DataFrame` row carries the
  integer index assigned by `read_csv` (0, 1, 2, ...); we keep it in the
  field `idx` so that statements about "original dataset order" can be made.
  The `Metacritic Score` column is a float column that may contain `NaN`;
  we model it as `Option ℚ` with `none` for `NaN` (a pandas comparison
  `NaN >= x` evaluates to `False`, which the model makes explicit).
* dates at year granularity plus a sub-year offset: the `Date` column is
  `pd.to_datetime(Year, format="%Y")`, i.e. January 1 of the year
  (`sub = 0`); the date-picker bounds may be arbitrary days, i.e. any
  `sub`.  Comparison of dates is lexicographic on (year, sub-year offset).
* the load step `pd.read_csv(...).assign(Date=...).sort_values(by="Year")`;
  `sort_values` uses pandas' default `kind='quicksort'`, which pandas
  documents as not stable, so the load step is modelled relationally by
  `sortValuesSpec`: the output is some permutation of the rows that is
  ascending in `Year`, with the order of equal-`Year` rows unspecified.
* the callback `update_graphs`: the date-range query, the two per-axis
  queries, and the two figure data series.
* the option derivation at load time (`metacritic_score`, `oscar_wins`,
  and the `DatePickerRange` bounds `data["Date"].min()` / `.max()`).
-/

namespace DashData

/-- A calendar date at the granularity the app uses: a year plus an abstract
sub-year offset (0 = January 1).  Ordering is lexicographic. -/
structure MDate where
  year : Int
  sub : Nat
deriving DecidableEq, Repr

/-- Date comparison, lexicographic on (year, sub-year offset). -/
def MDate.le (a b : MDate) : Prop :=
  a.year < b.year ∨ (a.year = b.year ∧ a.sub ≤ b.sub)

/-- Strict date comparison. -/
def MDate.lt (a b : MDate) : Prop :=
  a.year < b.year ∨ (a.year = b.year ∧ a.sub < b.sub)

instance : DecidableRel MDate.le := fun a b => by
  unfold MDate.le; infer_instance

instance : DecidableRel MDate.lt := fun a b => by
  unfold MDate.lt; infer_instance

/-- One row of the catalog, as produced by the record normalizer
(`read_csv` + `assign`):  `idx` is the pandas row index assigned at load,
`score` is the `Metacritic Score` column (`none` = `NaN`),
`oscars` is the `Oscars Won` column. -/
structure Movie where
  idx : Nat
  title : String
  year : Int
  score : Option ℚ
  oscars : Int
deriving DecidableEq, Repr

/-- The `Date` column: `pd.to_datetime(df["Year"], format="%Y")`, i.e.
January 1 of the release year. -/
def Movie.date (m : Movie) : MDate := ⟨m.year, 0⟩

/-- The sort key relation of `.sort_values(by="Year")`. -/
def yearLe (a b : Movie) : Prop := a.year ≤ b.year

instance : DecidableRel yearLe := fun a b => by
  unfold yearLe; infer_instance

/-- The contract of the load step
`pd.read_csv(...).assign(Date=...).sort_values(by="Year")`: the loaded
dataset `out` is a permutation of the CSV rows that is ascending in
`Year`.  `sort_values` defaults to `kind='quicksort'`, which pandas
documents as not stable, so nothing more is guaranteed about the relative
order of rows sharing a `Year`. -/
def sortValuesSpec (csv out : List Movie) : Prop :=
  out.Perm csv ∧ List.Pairwise yearLe out

/-- The live filter state fed to `update_graphs`: the selected minimum
Metacritic score, minimum Oscars won, and the date-picker range. -/
structure Criteria where
  minScore : ℚ
  minOscars : Int
  startDate : MDate
  endDate : MDate
deriving DecidableEq, Repr

/-- The date-range predicate of
`data.query("(Date >= @start_date) & (Date <= @end_date)")`. -/
def dateInRange (c : Criteria) (m : Movie) : Bool :=
  decide (MDate.le c.startDate m.date) && decide (MDate.le m.date c.endDate)

/-- `date_filtered = data.query("(Date >= @start_date) & (Date <= @end_date)")`. -/
def dateFiltered (l : List Movie) (c : Criteria) : List Movie :=
  l.filter (dateInRange c)

/-- The score predicate of `.query("(Metacritic Score >= @metacritic_score)")`.
In pandas, `NaN >= x` is `False`, so a row with an absent score never
passes. -/
def scoreGe (ms : ℚ) (m : Movie) : Bool :=
  match m.score with
  | none => false
  | some s => decide (ms ≤ s)

/-- `filtered_metacritic = date_filtered.query("(Metacritic Score >= @metacritic_score)")`. -/
def filteredMetacritic (l : List Movie) (c : Criteria) : List Movie :=
  (dateFiltered l c).filter (scoreGe c.minScore)

/-- `filtered_oscars = date_filtered.query("(Oscars Won >= @oscar_wins)")`. -/
def filteredOscars (l : List Movie) (c : Criteria) : List Movie :=
  (dateFiltered l c).filter (fun m => decide (c.minOscars ≤ m.oscars))

/-- The data series of the scatter figure: parallel lists
`x = filtered_metacritic["Date"]`, `y = filtered_metacritic["Metacritic Score"]`,
`text = filtered_metacritic["Title"]`. -/
structure ScoreSeries where
  x : List MDate
  y : List (Option ℚ)
  text : List String
deriving DecidableEq, Repr

/-- Assembles the scatter-figure series from the score-filtered view. -/
def scoreSeries (l : List Movie) (c : Criteria) : ScoreSeries :=
  { x := (filteredMetacritic l c).map Movie.date
  , y := (filteredMetacritic l c).map Movie.score
  , text := (filteredMetacritic l c).map Movie.title }

/-- `value_counts().sort_index()` over a column of values: the distinct
values that occur, ascending, each paired with its number of occurrences. -/
def valueCountsSorted (l : List Int) : List (Int × Nat) :=
  (List.insertionSort (· ≤ ·) l.dedup).map (fun k => (k, l.count k))

/-- The award histogram: `filtered_oscars["Oscars Won"].value_counts().sort_index()`. -/
def awardHistogram (view : List Movie) : List (Int × Nat) :=
  valueCountsSorted (view.map Movie.oscars)

/-- The data series of the histogram figure: parallel lists
`x = ....value_counts().sort_index().index` and `y = ....values`. -/
structure OscarSeries where
  x : List Int
  y : List Nat
deriving DecidableEq, Repr

/-- Assembles the histogram-figure series from the oscars-filtered view. -/
def oscarSeries (l : List Movie) (c : Criteria) : OscarSeries :=
  { x := (awardHistogram (filteredOscars l c)).map Prod.fst
  , y := (awardHistogram (filteredOscars l c)).map Prod.snd }

/-- The whole `update_graphs` callback body, reduced to the data series of
the two figures (the layout dictionaries carry no data). -/
def updateGraphs (l : List Movie) (ms : ℚ) (ow : Int) (sd ed : MDate) :
    ScoreSeries × OscarSeries :=
  (scoreSeries l ⟨ms, ow, sd, ed⟩, oscarSeries l ⟨ms, ow, sd, ed⟩)

/-- `metacritic_score = data["Metacritic Score"].dropna().sort_values().unique()`:
drop absent scores, sort ascending, keep each value once. -/
def scoreOptions (l : List Movie) : List ℚ :=
  (List.insertionSort (· ≤ ·) (l.filterMap Movie.score)).dedup

/-- `oscar_wins = data["Oscars Won"].sort_values().unique()`. -/
def oscarOptions (l : List Movie) : List Int :=
  (List.insertionSort (· ≤ ·) (l.map Movie.oscars)).dedup

/-- `data["Date"].min()`: the minimum of the `Date` column, `none` on an
empty dataset (pandas `NaT`). -/
def dateMin (l : List Movie) : Option MDate :=
  match l.map Movie.date with
  | [] => none
  | d :: ds => some (ds.foldl (fun a b => if MDate.le a b then a else b) d)

/-- `data["Date"].max()`: the maximum of the `Date` column, `none` on an
empty dataset. -/
def dateMax (l : List Movie) : Option MDate :=
  match l.map Movie.date with
  | [] => none
  | d :: ds => some (ds.foldl (fun a b => if MDate.le b a then a else b) d)

/-- The intended order of a filtered view: strictly earlier release date,
or equal release date and smaller original row index — the order a stable
filter over the year-sorted dataset must produce. -/
def stableLt (a b : Movie) : Prop :=
  MDate.lt a.date b.date ∨ (a.date = b.date ∧ a.idx < b.idx)

instance : DecidableRel stableLt := fun a b => by
  unfold stableLt; infer_instance

/-- Record A of the specification's example dataset (§8): year 2000,
score 80, 1 oscar. -/
def exA : Movie := ⟨0, "A", 2000, some 80, 1⟩

/-- Record B of the example dataset: year 2005, absent score, 0 oscars. -/
def exB : Movie := ⟨1, "B", 2005, none, 0⟩

/-- Record C of the example dataset: year 2010, score 90, 3 oscars. -/
def exC : Movie := ⟨2, "C", 2010, some 90, 3⟩

/-- Record D of the example dataset: year 2010, score 70, 3 oscars. -/
def exD : Movie := ⟨3, "D", 2010, some 70, 3⟩

/-- The specification's example dataset. -/
def exCatalog : List Movie := [exA, exB, exC, exD]

/-- The specification's example scenario-1 criteria. -/
def exCriteria : Criteria := ⟨75, 0, ⟨2000, 0⟩, ⟨2020, 0⟩⟩

/-! ### Helper lemmas -/

theorem MDate.le_refl (a : MDate) : MDate.le a a := Or.inr ⟨rfl, Nat.le_refl _⟩

theorem MDate.le_trans {a b c : MDate} (h1 : MDate.le a b) (h2 : MDate.le b c) :
    MDate.le a c := by
  rcases h1 with h1 | ⟨e1, s1⟩ <;> rcases h2 with h2 | ⟨e2, s2⟩
  · exact Or.inl (h1.trans h2)
  · exact Or.inl (e2 ▸ h1)
  · exact Or.inl (e1 ▸ h2)
  · exact Or.inr ⟨e1.trans e2, s1.trans s2⟩

theorem MDate.le_total (a b : MDate) : MDate.le a b ∨ MDate.le b a := by
  rcases Int.lt_trichotomy a.year b.year with h | h | h
  · exact Or.inl (Or.inl h)
  · rcases Nat.le_total a.sub b.sub with hs | hs
    · exact Or.inl (Or.inr ⟨h, hs⟩)
    · exact Or.inr (Or.inr ⟨h.symm, hs⟩)
  · exact Or.inr (Or.inl h)

/-- The score predicate passes exactly when the score is present and at
least the selected minimum (pandas evaluates `NaN >= x` to `False`). -/
theorem scoreGe_iff (ms : ℚ) (m : Movie) :
    scoreGe ms m = true ↔ ∃ s, m.score = some s ∧ ms ≤ s := by
  obtain ⟨i, t, y, sc, o⟩ := m
  cases sc <;> simp [scoreGe]

theorem scoreGe_mono {ms ms' : ℚ} (h : ms' ≤ ms) {m : Movie}
    (hm : scoreGe ms m = true) : scoreGe ms' m = true := by
  rw [scoreGe_iff] at hm ⊢
  obtain ⟨s, hs, hle⟩ := hm
  exact ⟨s, hs, h.trans hle⟩

theorem dateInRange_iff (c : Criteria) (m : Movie) :
    dateInRange c m = true ↔
      MDate.le c.startDate m.date ∧ MDate.le m.date c.endDate := by
  simp [dateInRange]

theorem length_filter_mono {α : Type} {p q : α → Bool} (l : List α)
    (h : ∀ a ∈ l, p a = true → q a = true) :
    (l.filter p).length ≤ (l.filter q).length := by
  rw [← List.countP_eq_length_filter, ← List.countP_eq_length_filter]
  exact List.countP_mono_left h

/-! ### Claims about the Filter Engine -/

/-- Membership characterization of the score-axis view. -/
theorem mem_filteredMetacritic (l : List Movie) (c : Criteria) (m : Movie) :
    m ∈ filteredMetacritic l c ↔
      m ∈ l ∧ MDate.le c.startDate m.date ∧ MDate.le m.date c.endDate ∧
        ∃ s, m.score = some s ∧ c.minScore ≤ s := by
  rw [filteredMetacritic, dateFiltered, List.mem_filter, List.mem_filter,
    scoreGe_iff, dateInRange_iff]
  tauto

/-- Membership characterization of the oscars-axis view. -/
theorem mem_filteredOscars (l : List Movie) (c : Criteria) (m : Movie) :
    m ∈ filteredOscars l c ↔
      m ∈ l ∧ MDate.le c.startDate m.date ∧ MDate.le m.date c.endDate ∧
        c.minOscars ≤ m.oscars := by
  rw [filteredOscars, dateFiltered, List.mem_filter, List.mem_filter,
    dateInRange_iff, decide_eq_true_eq]
  tauto

/-- C1.  The two per-axis views contain exactly the records of the dataset
whose release date lies in the inclusive range `[dateStart, dateEnd]` and
that satisfy the axis predicate: a present score at least `minScore` for
the score axis, `oscars` at least `minOscars` for the oscars axis. -/
theorem C1_filter_engine_membership (l : List Movie) (c : Criteria) (m : Movie) :
    (m ∈ filteredMetacritic l c ↔
      m ∈ l ∧ MDate.le c.startDate m.date ∧ MDate.le m.date c.endDate ∧
        ∃ s, m.score = some s ∧ c.minScore ≤ s) ∧
    (m ∈ filteredOscars l c ↔
      m ∈ l ∧ MDate.le c.startDate m.date ∧ MDate.le m.date c.endDate ∧
        c.minOscars ≤ m.oscars) :=
  ⟨mem_filteredMetacritic l c m, mem_filteredOscars l c m⟩

/-- C2.  Records with an absent Metacritic score never pass the score
filter and never contribute a `y` value to the scatter series, no matter
how low the selected minimum score is. -/
theorem C2_absent_scores_excluded (l : List Movie) (c : Criteria) :
    (∀ m ∈ filteredMetacritic l c, m.score ≠ none) ∧
    (∀ s ∈ (scoreSeries l c).y, s ≠ none) := by
  have key : ∀ m ∈ filteredMetacritic l c, m.score ≠ none := by
    intro m hm
    obtain ⟨s, hs, _⟩ := ((mem_filteredMetacritic l c m).mp hm).2.2.2
    simp [hs]
  refine ⟨key, ?_⟩
  intro s hs
  rw [scoreSeries] at hs
  simp only [List.mem_map] at hs
  obtain ⟨m, hm, rfl⟩ := hs
  exact key m hm

/-- Witness for C2 at the spec's example record A(2000, score 80, 1 oscar). -/
theorem C2_witness :
    (⟨0, "A", 2000, some 80, 1⟩ : Movie).score ≠ none :=
  (C2_absent_scores_excluded [⟨0, "A", 2000, some 80, 1⟩]
      ⟨75, 0, ⟨2000, 0⟩, ⟨2020, 0⟩⟩).1 _ (by decide)

/-- C8.  The date-range filter is idempotent: re-filtering an
already-date-filtered view by the same range returns the identical
sequence. -/
theorem C8_date_filter_idempotent (l : List Movie) (c : Criteria) :
    dateFiltered (dateFiltered l c) c = dateFiltered l c := by
  unfold dateFiltered
  rw [List.filter_filter]
  simp only [Bool.and_self]

/-- C9.  The pipeline is deterministic: equal filter parameters produce
identical output series; and both views are sublists of the dataset (the
computation only selects from the immutable dataset, never rewrites it). -/
theorem C9_deterministic_pure (l : List Movie) (ms1 ms2 : ℚ) (ow1 ow2 : Int)
    (sd1 sd2 ed1 ed2 : MDate)
    (h1 : ms1 = ms2) (h2 : ow1 = ow2) (h3 : sd1 = sd2) (h4 : ed1 = ed2) :
    updateGraphs l ms1 ow1 sd1 ed1 = updateGraphs l ms2 ow2 sd2 ed2 ∧
    List.Sublist (filteredMetacritic l ⟨ms1, ow1, sd1, ed1⟩) l ∧
    List.Sublist (filteredOscars l ⟨ms1, ow1, sd1, ed1⟩) l := by
  subst h1; subst h2; subst h3; subst h4
  refine ⟨rfl, ?_, ?_⟩
  · exact (List.filter_sublist _).trans (List.filter_sublist _)
  · exact (List.filter_sublist _).trans (List.filter_sublist _)

/-- Witness for C9 at the spec's example dataset and scenario-1 criteria. -/
theorem C9_witness :
    updateGraphs [⟨0, "A", 2000, some 80, 1⟩] 75 0 ⟨2000, 0⟩ ⟨2020, 0⟩
      = updateGraphs [⟨0, "A", 2000, some 80, 1⟩] 75 0 ⟨2000, 0⟩ ⟨2020, 0⟩ :=
  (C9_deterministic_pure [⟨0, "A", 2000, some 80, 1⟩] 75 75 0 0
    ⟨2000, 0⟩ ⟨2000, 0⟩ ⟨2020, 0⟩ ⟨2020, 0⟩ rfl rfl rfl rfl).1

/-! ### Claims about the Aggregator -/

/-- C3.  The counts of the award histogram sum to the size of the
oscars-filtered view. -/
theorem C3_histogram_total_count (l : List Movie) (c : Criteria) :
    ((awardHistogram (filteredOscars l c)).map Prod.snd).sum
      = (filteredOscars l c).length := by
  rw [awardHistogram, valueCountsSorted, List.map_map]
  have hperm :
      ((List.insertionSort (· ≤ ·) ((filteredOscars l c).map Movie.oscars).dedup).map
          (fun k => ((filteredOscars l c).map Movie.oscars).count k)).Perm
        ((((filteredOscars l c).map Movie.oscars).dedup).map
          (fun k => ((filteredOscars l c).map Movie.oscars).count k)) :=
    (List.perm_insertionSort _ _).map _
  calc ((List.insertionSort (· ≤ ·) ((filteredOscars l c).map Movie.oscars).dedup).map
          (Prod.snd ∘ fun k => (k, ((filteredOscars l c).map Movie.oscars).count k))).sum
      = ((((filteredOscars l c).map Movie.oscars).dedup).map
          (fun k => ((filteredOscars l c).map Movie.oscars).count k)).sum := hperm.sum_eq
    _ = ((filteredOscars l c).map Movie.oscars).length :=
        List.sum_map_count_dedup_eq_length _
    _ = (filteredOscars l c).length := List.length_map _ _

/-- C4.  The histogram keys are strictly ascending (hence each appears at
most once), they are exactly the `oscars` values occurring in the
oscars-filtered view (no zero-filled gaps), and an empty view yields an
empty histogram. -/
theorem C4_histogram_keys (l : List Movie) (c : Criteria) :
    List.Pairwise (· < ·) ((awardHistogram (filteredOscars l c)).map Prod.fst) ∧
    (∀ k : Int, k ∈ (awardHistogram (filteredOscars l c)).map Prod.fst ↔
        ∃ m ∈ filteredOscars l c, m.oscars = k) ∧
    (filteredOscars l c = [] → awardHistogram (filteredOscars l c) = []) := by
  have hkeys : (awardHistogram (filteredOscars l c)).map Prod.fst
      = List.insertionSort (· ≤ ·) ((filteredOscars l c).map Movie.oscars).dedup := by
    rw [awardHistogram, valueCountsSorted, List.map_map]
    exact List.map_id _
  refine ⟨?_, ?_, ?_⟩
  · rw [hkeys]
    have hsorted : List.Sorted (· ≤ ·)
        (List.insertionSort (· ≤ ·) ((filteredOscars l c).map Movie.oscars).dedup) :=
      List.sorted_insertionSort _ _
    have hnodup : (List.insertionSort (· ≤ ·)
        ((filteredOscars l c).map Movie.oscars).dedup).Nodup :=
      (List.perm_insertionSort _ _).nodup_iff.mpr (List.nodup_dedup _)
    exact List.Pairwise.imp₂ (fun a b hle hne => lt_of_le_of_ne hle hne) hsorted hnodup
  · intro k
    rw [hkeys, (List.perm_insertionSort _ _).mem_iff, List.mem_dedup, List.mem_map]
  · intro h
    rw [h]
    rfl

/-- Witness for C4: the empty dataset gives an empty view, hence an empty
histogram. -/
theorem C4_witness :
    awardHistogram (filteredOscars [] ⟨0, 0, ⟨2000, 0⟩, ⟨2020, 0⟩⟩) = [] :=
  (C4_histogram_keys [] ⟨0, 0, ⟨2000, 0⟩, ⟨2020, 0⟩⟩).2.2 rfl

/-- Widening both date bounds preserves passing the date-range predicate. -/
theorem dateInRange_widen {c c2 : Criteria} (hs : MDate.le c2.startDate c.startDate)
    (he : MDate.le c.endDate c2.endDate) {m : Movie}
    (hm : dateInRange c m = true) : dateInRange c2 m = true := by
  rw [dateInRange_iff] at hm ⊢
  exact ⟨MDate.le_trans hs hm.1, MDate.le_trans hm.2 he⟩

/-- C5.  Widening any single bound of the criteria — a lower minimum
score, a lower minimum oscar count, an earlier start date, or a later end
date, the other fields fixed — never shrinks the corresponding filtered
view. -/
theorem C5_filter_monotone (l : List Movie) (c : Criteria) :
    (∀ ms2 : ℚ, ms2 ≤ c.minScore →
      (filteredMetacritic l c).length ≤
        (filteredMetacritic l ⟨ms2, c.minOscars, c.startDate, c.endDate⟩).length) ∧
    (∀ ow2 : Int, ow2 ≤ c.minOscars →
      (filteredOscars l c).length ≤
        (filteredOscars l ⟨c.minScore, ow2, c.startDate, c.endDate⟩).length) ∧
    (∀ sd2 : MDate, MDate.le sd2 c.startDate →
      (filteredMetacritic l c).length ≤
        (filteredMetacritic l ⟨c.minScore, c.minOscars, sd2, c.endDate⟩).length ∧
      (filteredOscars l c).length ≤
        (filteredOscars l ⟨c.minScore, c.minOscars, sd2, c.endDate⟩).length) ∧
    (∀ ed2 : MDate, MDate.le c.endDate ed2 →
      (filteredMetacritic l c).length ≤
        (filteredMetacritic l ⟨c.minScore, c.minOscars, c.startDate, ed2⟩).length ∧
      (filteredOscars l c).length ≤
        (filteredOscars l ⟨c.minScore, c.minOscars, c.startDate, ed2⟩).length) := by
  refine ⟨?_, ?_, ?_, ?_⟩
  · intro ms2 hms
    exact length_filter_mono _ (fun a _ hpa => scoreGe_mono hms hpa)
  · intro ow2 how
    refine length_filter_mono _ (fun a _ hpa => ?_)
    rw [decide_eq_true_eq] at hpa ⊢
    exact how.trans hpa
  · intro sd2 hsd
    constructor
    · unfold filteredMetacritic dateFiltered
      rw [List.filter_filter, List.filter_filter]
      refine length_filter_mono _ (fun a _ hpa => ?_)
      rw [Bool.and_eq_true] at hpa ⊢
      exact ⟨hpa.1, @dateInRange_widen c ⟨c.minScore, c.minOscars, sd2, c.endDate⟩
        hsd (MDate.le_refl _) a hpa.2⟩
    · unfold filteredOscars dateFiltered
      rw [List.filter_filter, List.filter_filter]
      refine length_filter_mono _ (fun a _ hpa => ?_)
      rw [Bool.and_eq_true] at hpa ⊢
      exact ⟨hpa.1, @dateInRange_widen c ⟨c.minScore, c.minOscars, sd2, c.endDate⟩
        hsd (MDate.le_refl _) a hpa.2⟩
  · intro ed2 hed
    constructor
    · unfold filteredMetacritic dateFiltered
      rw [List.filter_filter, List.filter_filter]
      refine length_filter_mono _ (fun a _ hpa => ?_)
      rw [Bool.and_eq_true] at hpa ⊢
      exact ⟨hpa.1, @dateInRange_widen c ⟨c.minScore, c.minOscars, c.startDate, ed2⟩
        (MDate.le_refl _) hed a hpa.2⟩
    · unfold filteredOscars dateFiltered
      rw [List.filter_filter, List.filter_filter]
      refine length_filter_mono _ (fun a _ hpa => ?_)
      rw [Bool.and_eq_true] at hpa ⊢
      exact ⟨hpa.1, @dateInRange_widen c ⟨c.minScore, c.minOscars, c.startDate, ed2⟩
        (MDate.le_refl _) hed a hpa.2⟩

/-- Witness for C5 on the example dataset: each of the four widenings at a
concrete widened bound. -/
theorem C5_witness :
    ((filteredMetacritic exCatalog exCriteria).length ≤
      (filteredMetacritic exCatalog ⟨70, 0, ⟨2000, 0⟩, ⟨2020, 0⟩⟩).length) ∧
    ((filteredOscars exCatalog exCriteria).length ≤
      (filteredOscars exCatalog ⟨75, -1, ⟨2000, 0⟩, ⟨2020, 0⟩⟩).length) ∧
    ((filteredMetacritic exCatalog exCriteria).length ≤
      (filteredMetacritic exCatalog ⟨75, 0, ⟨1999, 0⟩, ⟨2020, 0⟩⟩).length) ∧
    ((filteredOscars exCatalog exCriteria).length ≤
      (filteredOscars exCatalog ⟨75, 0, ⟨2000, 0⟩, ⟨2021, 0⟩⟩).length) :=
  ⟨(C5_filter_monotone exCatalog exCriteria).1 70 (by decide),
   (C5_filter_monotone exCatalog exCriteria).2.1 (-1) (by decide),
   ((C5_filter_monotone exCatalog exCriteria).2.2.1 ⟨1999, 0⟩ (by decide)).1,
   ((C5_filter_monotone exCatalog exCriteria).2.2.2 ⟨2021, 0⟩ (by decide)).2⟩

/-! ### Claims about the View Assembler -/

/-- C10.  The assembled series are parallel: the scatter series' three
lists all have the length of the score-filtered view, and the histogram
series' two lists both have as length the number of distinct `oscars`
values in the oscars-filtered view. -/
theorem C10_parallel_series (l : List Movie) (c : Criteria) :
    ((scoreSeries l c).x.length = (filteredMetacritic l c).length ∧
     (scoreSeries l c).y.length = (filteredMetacritic l c).length ∧
     (scoreSeries l c).text.length = (filteredMetacritic l c).length) ∧
    ((oscarSeries l c).x.length = (oscarSeries l c).y.length ∧
     (oscarSeries l c).x.length
        = ((filteredOscars l c).map Movie.oscars).dedup.length) := by
  refine ⟨⟨?_, ?_, ?_⟩, ?_, ?_⟩ <;>
    simp [scoreSeries, oscarSeries, awardHistogram, valueCountsSorted]

/-! ### The order of the loaded dataset and of the views (C6) -/

theorem MDate.le_of_not_le {a b : MDate} (h : ¬MDate.le a b) : MDate.le b a :=
  (MDate.le_total a b).resolve_left h

/-- The year-sort key order implies the (weak) release-date order. -/
theorem date_le_of_yearLe {a b : Movie} (h : yearLe a b) :
    MDate.le a.date b.date := by
  have hy : a.year ≤ b.year := h
  unfold Movie.date MDate.le
  rcases lt_or_eq_of_le hy with h1 | h1
  · exact Or.inl h1
  · exact Or.inr ⟨h1, Nat.le_refl 0⟩

/-- Counterexample to C6 as stated.  The CSV rows C (index 0) and D
(index 1) share the release year 2010.  The list [D, C] is an admissible
output of `sort_values(by="Year")` — a permutation ascending in `Year`;
the default quicksort promises nothing about the order of equal keys —
yet the score-filtered view built from it lists D before C, violating the
claimed tie-break by original dataset order. -/
theorem C6_counterexample :
    sortValuesSpec
        [⟨0, "C", 2010, some 90, 3⟩, ⟨1, "D", 2010, some 70, 3⟩]
        [⟨1, "D", 2010, some 70, 3⟩, ⟨0, "C", 2010, some 90, 3⟩] ∧
    List.Pairwise (fun a b => a.idx < b.idx)
        [(⟨0, "C", 2010, some 90, 3⟩ : Movie), ⟨1, "D", 2010, some 70, 3⟩] ∧
    ¬ List.Pairwise stableLt
        (filteredMetacritic
          [⟨1, "D", 2010, some 70, 3⟩, ⟨0, "C", 2010, some 90, 3⟩]
          ⟨0, 0, ⟨2000, 0⟩, ⟨2020, 0⟩⟩) := by
  refine ⟨⟨?_, ?_⟩, ?_, ?_⟩ <;> decide

/-- C6 (amended).  For every CSV and every admissible result of the year
sort — any permutation of the rows ascending in `Year`, which is all the
default (non-stable) quicksort guarantees — both filtered views are
ordered ascending by release date, and the filter is stable: each view is
a sublist of the loaded dataset, preserving its row order.  The original
claim's tie-break by original CSV order is not guaranteed by the code
(see the counterexample). -/
theorem C6_amended_view_order (csv out : List Movie)
    (h : sortValuesSpec csv out) (c : Criteria) :
    (List.Pairwise (fun a b => MDate.le a.date b.date)
        (filteredMetacritic out c) ∧
      List.Sublist (filteredMetacritic out c) out) ∧
    (List.Pairwise (fun a b => MDate.le a.date b.date)
        (filteredOscars out c) ∧
      List.Sublist (filteredOscars out c) out) := by
  have hd : List.Pairwise (fun a b : Movie => MDate.le a.date b.date) out :=
    h.2.imp (fun hab => date_le_of_yearLe hab)
  refine ⟨⟨?_, ?_⟩, ?_, ?_⟩
  · exact List.Pairwise.sublist
      ((List.filter_sublist _).trans (List.filter_sublist _)) hd
  · exact (List.filter_sublist _).trans (List.filter_sublist _)
  · exact List.Pairwise.sublist
      ((List.filter_sublist _).trans (List.filter_sublist _)) hd
  · exact (List.filter_sublist _).trans (List.filter_sublist _)

/-- Witness for C6 on the spec's example dataset, which is already
year-ascending, so it is its own admissible sort output. -/
theorem C6_witness :
    List.Pairwise (fun a b => MDate.le a.date b.date)
      (filteredMetacritic exCatalog exCriteria) ∧
    List.Sublist (filteredMetacritic exCatalog exCriteria) exCatalog :=
  (C6_amended_view_order exCatalog exCatalog
    ⟨List.Perm.refl _, by decide⟩ exCriteria).1

/-! ### The Option Deriver (C7) -/

theorem foldl_pick_mem (f : MDate → MDate → MDate)
    (hf : ∀ a b, f a b = a ∨ f a b = b) :
    ∀ (ds : List MDate) (d : MDate), ds.foldl f d ∈ d :: ds := by
  intro ds
  induction ds with
  | nil =>
    intro d
    simp
  | cons b t ih =>
    intro d
    rw [List.foldl_cons]
    rcases hf d b with he | he <;> rw [he]
    · have h := ih d
      simp only [List.mem_cons] at h ⊢
      tauto
    · have h := ih b
      simp only [List.mem_cons] at h ⊢
      tauto

theorem foldl_minDate_le :
    ∀ (ds : List MDate) (d x : MDate), x ∈ d :: ds →
      MDate.le (ds.foldl (fun a b => if MDate.le a b then a else b) d) x := by
  intro ds
  induction ds with
  | nil =>
    intro d x hx
    rw [List.mem_singleton] at hx
    subst hx
    exact MDate.le_refl x
  | cons b t ih =>
    intro d x hx
    rw [List.foldl_cons]
    have hself : MDate.le (t.foldl (fun a b => if MDate.le a b then a else b)
        (if MDate.le d b then d else b)) (if MDate.le d b then d else b) :=
      ih _ _ (List.mem_cons_self _ _)
    rcases List.mem_cons.mp hx with rfl | hx2
    · by_cases hdb : MDate.le x b
      · rw [if_pos hdb] at hself ⊢
        exact hself
      · rw [if_neg hdb] at hself ⊢
        exact MDate.le_trans hself (MDate.le_of_not_le hdb)
    · rcases List.mem_cons.mp hx2 with rfl | hx3
      · by_cases hdb : MDate.le d x
        · rw [if_pos hdb] at hself ⊢
          exact MDate.le_trans hself hdb
        · rw [if_neg hdb] at hself ⊢
          exact hself
      · exact ih _ _ (List.mem_cons_of_mem _ hx3)

theorem foldl_maxDate_ge :
    ∀ (ds : List MDate) (d x : MDate), x ∈ d :: ds →
      MDate.le x (ds.foldl (fun a b => if MDate.le b a then a else b) d) := by
  intro ds
  induction ds with
  | nil =>
    intro d x hx
    rw [List.mem_singleton] at hx
    subst hx
    exact MDate.le_refl x
  | cons b t ih =>
    intro d x hx
    rw [List.foldl_cons]
    have hself : MDate.le (if MDate.le b d then d else b)
        (t.foldl (fun a b => if MDate.le b a then a else b)
          (if MDate.le b d then d else b)) :=
      ih _ _ (List.mem_cons_self _ _)
    rcases List.mem_cons.mp hx with rfl | hx2
    · by_cases hdb : MDate.le b x
      · rw [if_pos hdb] at hself ⊢
        exact hself
      · rw [if_neg hdb] at hself ⊢
        exact MDate.le_trans (MDate.le_of_not_le hdb) hself
    · rcases List.mem_cons.mp hx2 with rfl | hx3
      · by_cases hdb : MDate.le x d
        · rw [if_pos hdb] at hself ⊢
          exact MDate.le_trans hdb hself
        · rw [if_neg hdb] at hself ⊢
          exact hself
      · exact ih _ _ (List.mem_cons_of_mem _ hx3)

/-- C7.  On a non-empty dataset the Option Deriver yields: the distinct
present scores ascending without duplicates, the distinct oscar counts
ascending without duplicates, and the minimum and maximum release date of
the whole dataset. -/
theorem C7_option_deriver (csv : List Movie) (h : csv ≠ []) :
    (List.Sorted (· ≤ ·) (scoreOptions csv) ∧ (scoreOptions csv).Nodup ∧
      ∀ q : ℚ, q ∈ scoreOptions csv ↔ ∃ m ∈ csv, m.score = some q) ∧
    (List.Sorted (· ≤ ·) (oscarOptions csv) ∧ (oscarOptions csv).Nodup ∧
      ∀ k : Int, k ∈ oscarOptions csv ↔ ∃ m ∈ csv, m.oscars = k) ∧
    (∃ dmin, dateMin csv = some dmin ∧ dmin ∈ csv.map Movie.date ∧
      ∀ m ∈ csv, MDate.le dmin m.date) ∧
    (∃ dmax, dateMax csv = some dmax ∧ dmax ∈ csv.map Movie.date ∧
      ∀ m ∈ csv, MDate.le m.date dmax) := by
  obtain ⟨m0, rest, rfl⟩ : ∃ m0 rest, csv = m0 :: rest := by
    cases csv with
    | nil => exact absurd rfl h
    | cons m0 rest => exact ⟨m0, rest, rfl⟩
  refine ⟨⟨?_, ?_, ?_⟩, ⟨?_, ?_, ?_⟩, ?_, ?_⟩
  · exact List.Pairwise.sublist (List.dedup_sublist _) (List.sorted_insertionSort _ _)
  · exact List.nodup_dedup _
  · intro q
    rw [scoreOptions, List.mem_dedup, (List.perm_insertionSort _ _).mem_iff,
      List.mem_filterMap]
  · exact List.Pairwise.sublist (List.dedup_sublist _) (List.sorted_insertionSort _ _)
  · exact List.nodup_dedup _
  · intro k
    rw [oscarOptions, List.mem_dedup, (List.perm_insertionSort _ _).mem_iff,
      List.mem_map]
  · refine ⟨(rest.map Movie.date).foldl
      (fun a b => if MDate.le a b then a else b) m0.date, rfl, ?_, ?_⟩
    · exact foldl_pick_mem _ (fun a b => by split <;> simp) _ _
    · intro m2 hm2
      exact foldl_minDate_le _ _ _ (by
        rcases List.mem_cons.mp hm2 with rfl | hm3
        · exact List.mem_cons_self _ _
        · exact List.mem_cons_of_mem _ (List.mem_map_of_mem Movie.date hm3))
  · refine ⟨(rest.map Movie.date).foldl
      (fun a b => if MDate.le b a then a else b) m0.date, rfl, ?_, ?_⟩
    · exact foldl_pick_mem _ (fun a b => by split <;> simp) _ _
    · intro m2 hm2
      exact foldl_maxDate_ge _ _ _ (by
        rcases List.mem_cons.mp hm2 with rfl | hm3
        · exact List.mem_cons_self _ _
        · exact List.mem_cons_of_mem _ (List.mem_map_of_mem Movie.date hm3))

/-- Witness for C7: the minimum date over the example dataset. -/
theorem C7_witness :
    ∃ dmin, dateMin exCatalog = some dmin ∧ dmin ∈ exCatalog.map Movie.date ∧
      ∀ m ∈ exCatalog, MDate.le dmin m.date :=
  (C7_option_deriver exCatalog (by decide)).2.2.1

end DashData
